import Mathlib

/-!
# Verification of the hotload connection hot-swap engine

Shallow embedding of `driver.go` of the `hotload` package: the driver and
strategy registries, the dispatcher (`hdriver.Open`), the per-target monitor
(`chanGroup`) with its swap protocol (`run` / `valueChanged` /
`resetConnections`), option merging (`mergeConnectionStringOptions`), and the
connection wrapper (`managedConn`, whose own source file is not part of the
sources considered here and is therefore modelled from the specification where
its internals matter).

Go's `net/url` is an external library; it is modelled below restricted to the
behaviors the code exercises (scheme/authority/path/query splitting, control
character rejection, the `viaRequest` absolute-URI requirement of
`ParseRequestURI`, query parsing/encoding at the ASCII level).  Fragments,
percent-decoding of host/path components, and the userinfo/host split are not
modelled: the authority is kept verbatim in `host`, which agrees with Go on all
inputs the claims exercise.
-/

set_option autoImplicit false

namespace Hotload

/-! ## Model of the used fragment of Go `net/url` -/

/-- Go `net/url` rejects ASCII control characters (`c < ' ' || c == 0x7f`). -/
def isCtlChar (c : Char) : Bool := c.toNat < 0x20 || c.toNat == 0x7f

def hasCtl (s : String) : Bool := s.toList.any isCtlChar

/-- Does `l` start with `sep`?  (Structural replacement for `String.startsWith`,
which does not reduce definitionally.) -/
def listStarts : List Char → List Char → Bool
  | [], _ => true
  | _ :: _, [] => false
  | a :: as, b :: bs => a == b && listStarts as bs

def strStarts (s pre : String) : Bool := listStarts pre.data s.data

/-- Split at the first occurrence of `sep` (assumed nonempty): the part
before it and the part after it. -/
def splitOnceChars (sep : List Char) : List Char → Option (List Char × List Char)
  | [] => none
  | c :: rest =>
      if listStarts sep (c :: rest) then
        some ([], (c :: rest).drop sep.length)
      else
        match splitOnceChars sep rest with
        | some (a, b) => some (c :: a, b)
        | none => none

/-- Split `s` at the first occurrence of `sep`; `none` if `sep` does not occur. -/
def splitOnce (sep s : String) : Option (String × String) :=
  match splitOnceChars sep.data s.data with
  | some (a, b) => some (String.mk a, String.mk b)
  | none => none

/-- Iterated split on `sep` (Go `strings.Split`); the fuel is the input
length, which bounds the number of separators. -/
def splitAllAux (sep : List Char) : Nat → List Char → List (List Char)
  | 0, l => [l]
  | n + 1, l =>
      match splitOnceChars sep l with
      | none => [l]
      | some (a, b) => a :: splitAllAux sep n b

def splitAll (sep s : String) : List String :=
  (splitAllAux sep.data s.data.length s.data).map String.mk

def intercalateChars (sep : List Char) : List (List Char) → List Char
  | [] => []
  | [x] => x
  | x :: y :: rest => x ++ sep ++ intercalateChars sep (y :: rest)

/-- Does `sub` (nonempty) occur inside `s`? -/
def containsSub (sub s : String) : Bool := (splitOnceChars sub.data s.data).isSome

/-- Scheme characters per RFC 3986 as enforced by Go `getScheme`:
first character a letter, later ones letters, digits, `+`, `-`, `.`. -/
def isSchemeChar (first : Bool) (c : Char) : Bool :=
  if first then c.isAlpha else c.isAlpha || c.isDigit || c = '+' || c = '-' || c = '.'

/-- Core of Go `getScheme`: scan for a `:` preceded only by scheme characters.
`none` result: the URL has no scheme (the caller keeps the whole string).
A leading `:` is the Go error `missing protocol scheme`. -/
def getSchemeAux : List Char → List Char → Except String (Option (String × String))
  | _, [] => .ok none
  | acc, ':' :: rest =>
      if acc.isEmpty then .error "missing protocol scheme"
      else .ok (some (String.mk (acc.reverse.map Char.toLower), String.mk rest))
  | acc, c :: rest =>
      if isSchemeChar acc.isEmpty c then getSchemeAux (c :: acc) rest
      else .ok none

def getScheme (s : String) : Except String (Option (String × String)) :=
  getSchemeAux [] s.toList

/-- Result of Go `url.Parse` / `url.ParseRequestURI`, restricted to the fields
`driver.go` reads (`Scheme`, `Host`, `Path`, `RawQuery`) plus `Opaque`, which
`URL.String` needs.  The authority is kept verbatim in `host` (no
userinfo/port split). -/
structure GoURL where
  scheme : String
  opaqueData : String
  host : String
  path : String
  rawQuery : String
deriving Repr, DecidableEq

/-- Shared body of Go `url.parse(rawURL, viaRequest)` after scheme extraction. -/
def parseAfterScheme (sch : String) (rest0 : String) (viaRequest : Bool) :
    Except String GoURL :=
  let (rest, rawQuery) :=
    match splitOnce "?" rest0 with
    | some (a, b) => (a, b)
    | none => (rest0, "")
  if strStarts rest "//" &&
      (sch != "" || (!viaRequest && !strStarts rest "///")) then
    let hp := String.mk (rest.data.drop 2)
    match splitOnce "/" hp with
    | some (h, p) =>
        .ok { scheme := sch, opaqueData := "", host := h, path := "/" ++ p,
              rawQuery := rawQuery }
    | none =>
        .ok { scheme := sch, opaqueData := "", host := hp, path := "",
              rawQuery := rawQuery }
  else if strStarts rest "/" then
    .ok { scheme := sch, opaqueData := "", host := "", path := rest,
          rawQuery := rawQuery }
  else if sch != "" then
    .ok { scheme := sch, opaqueData := rest, host := "", path := "",
          rawQuery := rawQuery }
  else if viaRequest then
    .error "invalid URI for request"
  else
    if (rest.data.takeWhile (· ≠ '/')).contains ':' then
      .error "first path segment in URL cannot contain colon"
    else
      .ok { scheme := "", opaqueData := "", host := "", path := rest,
            rawQuery := rawQuery }

/-- Model of Go `url.parse(rawURL, viaRequest)` (fragments not modelled). -/
def parseURLCore (viaRequest : Bool) (s : String) : Except String GoURL :=
  if hasCtl s then .error "net/url: invalid control character in URL"
  else if s = "" && viaRequest then .error "empty url"
  else
    match getScheme s with
    | .error e => .error e
    | .ok (some (sch, rest)) => parseAfterScheme sch rest viaRequest
    | .ok none => parseAfterScheme "" s viaRequest

/-- Model of Go `url.Parse`. -/
def parseURL (s : String) : Except String GoURL := parseURLCore false s

/-- Model of Go `url.ParseRequestURI`: the argument must be an absolute URI or
an absolute path (this is what makes a hotload value "URI-shaped"). -/
def parseRequestURI (s : String) : Except String GoURL := parseURLCore true s

/-- Model of Go `url.URL.String` for the fields modelled here. -/
def urlString (u : GoURL) : String :=
  let base :=
    (if u.scheme ≠ "" then u.scheme ++ ":" else "") ++
    (if u.opaqueData ≠ "" then u.opaqueData
     else
       (if u.scheme ≠ "" ∨ u.host ≠ "" then
          (if u.host ≠ "" ∨ u.path ≠ "" then "//" else "") ++ u.host
        else "") ++ u.path)
  if u.rawQuery ≠ "" then base ++ "?" ++ u.rawQuery else base

/-! ### Query strings (`url.Values`) -/

/-- Go `url.Values` as an association list in first-appearance order. -/
abbrev Values := List (String × List String)

def hexDigit? (c : Char) : Option Nat :=
  if '0' ≤ c ∧ c ≤ '9' then some (c.toNat - '0'.toNat)
  else if 'a' ≤ c ∧ c ≤ 'f' then some (c.toNat - 'a'.toNat + 10)
  else if 'A' ≤ c ∧ c ≤ 'F' then some (c.toNat - 'A'.toNat + 10)
  else none

/-- Model of Go query-component unescaping: `+` becomes space, `%XY` with two
hex digits becomes the byte `XY`; a malformed escape is an error (`none`).
ASCII-level model (multi-byte UTF-8 sequences are not reassembled). -/
def unescapeQuery : List Char → Option (List Char)
  | [] => some []
  | '%' :: a :: b :: rest =>
      match hexDigit? a, hexDigit? b with
      | some ha, some hb =>
          (unescapeQuery rest).map (Char.ofNat (16 * ha + hb) :: ·)
      | _, _ => none
  | '%' :: _ => none
  | '+' :: rest => (unescapeQuery rest).map (' ' :: ·)
  | c :: rest => (unescapeQuery rest).map (c :: ·)

/-- Append `v` under key `k` (Go `m[key] = append(m[key], value)`). -/
def valuesAdd (vs : Values) (k v : String) : Values :=
  match vs with
  | [] => [(k, [v])]
  | (k', l) :: rest =>
      if k' = k then (k', l ++ [v]) :: rest else (k', l) :: valuesAdd rest k v

/-- Go `url.Values.Set`: replace all values of `k` by the single value `v`. -/
def valuesSet (vs : Values) (k v : String) : Values :=
  match vs with
  | [] => [(k, [v])]
  | (k', l) :: rest =>
      if k' = k then (k, [v]) :: rest else (k', l) :: valuesSet rest k v

def valuesGet (vs : Values) (k : String) : Option (List String) :=
  match vs with
  | [] => none
  | (k', l) :: rest => if k' = k then some l else valuesGet rest k

/-- Model of Go `url.ParseQuery`'s body: it records the first error but keeps
parsing, returning the successfully parsed pairs alongside the error.
Segments are split on `&`; a `;` is an error; key and value are unescaped. -/
def parseQuerySeg (acc : Values × Option String) (seg : String) :
    Values × Option String :=
  let (vs, err) := acc
  if seg.data.contains ';' then
    (vs, err <|> some "invalid semicolon separator in query")
  else if seg = "" then (vs, err)
  else
    let (k, v) :=
      match splitOnce "=" seg with
      | some (k, v) => (k, v)
      | none => (seg, "")
    match unescapeQuery k.toList, unescapeQuery v.toList with
    | some k', some v' => (valuesAdd vs (String.mk k') (String.mk v'), err)
    | _, _ => (vs, err <|> some "invalid URL escape")

def parseQueryCore (q : String) : Values × Option String :=
  let segs := if q = "" then [] else splitAll "&" q
  segs.foldl parseQuerySeg ([], none)

/-- Go `url.ParseQuery` as used with an error check (`values, err := ...`). -/
def parseQuery (q : String) : Except String Values :=
  match parseQueryCore q with
  | (vs, none) => .ok vs
  | (_, some e) => .error e

/-- Go `url.URL.Query()`: `ParseQuery` with the error ignored, keeping the
pairs that did parse. -/
def urlQuery (u : GoURL) : Values := (parseQueryCore u.rawQuery).1

/-- Characters Go's query encoder leaves unescaped (unreserved set). -/
def isQueryUnreserved (c : Char) : Bool :=
  c.isAlphanum || c = '-' || c = '_' || c = '.' || c = '~'

def hexUpper (n : Nat) : Char :=
  if n < 10 then Char.ofNat ('0'.toNat + n) else Char.ofNat ('A'.toNat + n - 10)

/-- Model of Go `url.QueryEscape` at the ASCII level: space becomes `+`,
unreserved characters are kept, everything else becomes `%XX`. -/
def queryEscape (s : String) : String :=
  String.mk (s.toList.foldr
    (fun c acc =>
      if c = ' ' then '+' :: acc
      else if isQueryUnreserved c then c :: acc
      else '%' :: hexUpper (c.toNat / 16 % 16) :: hexUpper (c.toNat % 16) :: acc)
    [])

/-- Lexicographic (byte-order) string comparison, as Go's key sort uses. -/
def strLeChars : List Char → List Char → Bool
  | [], _ => true
  | _ :: _, [] => false
  | a :: as, b :: bs =>
      if a.toNat < b.toNat then true
      else if b.toNat < a.toNat then false
      else strLeChars as bs

/-- Insertion into a key-sorted `Values` list, for `Encode`'s key sort. -/
def valuesInsertSorted (p : String × List String) : Values → Values
  | [] => [p]
  | q :: rest =>
      if strLeChars p.1.data q.1.data then p :: q :: rest
      else q :: valuesInsertSorted p rest

/-- Go `url.Values.Encode`: keys sorted, each pair escaped and joined. -/
def valuesEncode (vs : Values) : String :=
  String.mk (intercalateChars "&".data
    (((vs.foldr valuesInsertSorted []).flatMap
      (fun kv => kv.2.map (fun v => queryEscape kv.1 ++ "=" ++ queryEscape v))).map
      String.data))

/-! ## Errors of `driver.go`

Go errors are values compared by identity; each distinct error produced by
`driver.go` is a constructor.  `malformedConnectionString` mirrors the
declared `ErrMalformedConnectionString`; `parseErr`, `watchErr`, `mergeErr`
and `driverErr` carry the message of the error returned by `url.Parse`, the
strategy's `Watch`, `mergeConnectionStringOptions`, and the underlying
driver's `Open` respectively. -/
inductive HErr where
  | parseErr (msg : String)
  | unsupportedStrategy
  | malformedConnectionString
  | unknownDriver
  | watchErr (msg : String)
  | mergeErr (msg : String)
  | driverErr (msg : String)
deriving Repr, DecidableEq

/-! ## The connection wrapper (`managedConn`)

`managedConn`'s own source file is not among the sources considered here;
its fields and the effect of `Reset` and `Close` are modelled from the
specification (§4.6).  What `driver.go` itself does with it —
`newManagedConn(ctx, conn, remove)`, `c.Reset(true)`, `c.Close()` — is
embedded faithfully.  The wrapper object survives the monitor dropping it
from its bookkeeping (the Go caller holds a pointer), so the monitor state
keeps every wrapper it ever created in `heap`, while `conns` holds the ids
of the currently outstanding ones. -/
structure ManagedConn where
  id : Nat
  /-- The merged connection string the underlying driver was opened with. -/
  dsn : String
  /-- The raw underlying driver connection. -/
  raw : String
  /-- The scope epoch the wrapper was bound to at creation. -/
  ctx : Nat
  invalidated : Bool
  closeCalled : Bool
  /-- The error the underlying connection's `Close` reports, if any. -/
  closeErr : Option String
deriving Repr, DecidableEq

/-- Modelled from the spec: `managedConn.Reset(hard)` (§4.6) sets the
invalidation marker; the wrapper's source file is not among the sources. -/
def managedConnReset (hard : Bool) (c : ManagedConn) : ManagedConn :=
  { c with invalidated := hard }

/-- Modelled from the spec: `managedConn.Close` (§4.6) closes the underlying
connection, reporting its error; removal from the owning monitor's set is
subsumed here by `resetConnections` clearing `conns`. -/
def managedConnClose (c : ManagedConn) : ManagedConn × Option String :=
  ({ c with closeCalled := true }, c.closeErr)

/-- Modelled from the spec: `newManagedConn(ctx, conn, remove)` wraps a raw
driver connection, bound to the given scope, not yet invalidated. -/
def newManagedConn (ctx : Nat) (id : Nat) (dsn : String) (conn : Option String) :
    ManagedConn :=
  { id := id, dsn := dsn, raw := conn.getD "", ctx := ctx,
    invalidated := false, closeCalled := false, closeErr := none }

/-! ## Registries and the monitor (`chanGroup`) -/

/-- The underlying driver's `Open`, returning Go's `(driver.Conn, error)`
pair: a raw connection and/or an error message. -/
abbrev DrvFn := String → Option String × Option String

/-- A strategy's `Watch`, reduced to its pure part: path and query options to
the initial value (or an error).  The update channel it also returns is
consumed only by `run`, which is embedded as the per-delivery step
`runStep`, so the channel itself needs no representation. -/
abbrev StratFn := String → Values → Except String String

/-- Go `driverInstance`. -/
structure DriverInstance where
  driver : DrvFn
  options : List (String × String)

def lookupAssoc {α : Type} : List (String × α) → String → Option α
  | [], _ => none
  | (k', v) :: rest, k => if k' = k then some v else lookupAssoc rest k

def assocSet {α : Type} : List (String × α) → String → α → List (String × α)
  | [], k, v => [(k, v)]
  | (k', v') :: rest, k, v =>
      if k' = k then (k, v) :: rest else (k', v') :: assocSet rest k v

def assocKeys {α : Type} (l : List (String × α)) : List String := l.map (·.1)

/-- Go `WithDriverOptions`: merge the given options into the instance. -/
def withDriverOptions (options : List (String × String)) :
    DriverInstance → DriverInstance :=
  fun d => { d with options := options.foldl (fun m kv => assocSet m kv.1 kv.2) d.options }

/-- Go `RegisterSQLDriver`; its `panic` is embedded as `.error`. -/
def registerSQLDriver (sqlDrivers : List (String × DriverInstance)) (name : String)
    (drv : Option DrvFn) (options : List (DriverInstance → DriverInstance)) :
    Except String (List (String × DriverInstance)) :=
  match drv with
  | none => .error "hotload: Register driver is nil"
  | some d =>
    if (lookupAssoc sqlDrivers name).isSome then
      .error ("hotload: Register called twice for driver " ++ name)
    else
      .ok (sqlDrivers ++
        [(name, options.foldl (fun di o => o di) { driver := d, options := [] })])

/-- Go `RegisterStrategy`; its `panic` is embedded as `.error`. -/
def registerStrategy (strategies : List (String × StratFn)) (name : String)
    (strategy : Option StratFn) : Except String (List (String × StratFn)) :=
  match strategy with
  | none => .error "hotload: RegisterStrategy strategy is nil"
  | some s =>
    if (lookupAssoc strategies name).isSome then
      .error ("hotload: RegisterStrategy called twice for strategy " ++ name)
    else .ok (strategies ++ [(name, s)])

/-- Go `chanGroup`: the per-address monitor.  Contexts are modelled as
epochs: `ctx` is the monitor's current active scope, a swap records the old
epoch in `cancelledCtxs` and moves to a fresh one.  The mutex, the parent
context and the inbound channel (consumed by `runStep`) have no pure-state
content.  `heap` additionally records every wrapper the monitor ever created
(Go callers hold pointers to them after the monitor forgets them). -/
structure ChanGroup where
  value : String
  ctx : Nat
  cancelledCtxs : List Nat
  sqlDriver : DriverInstance
  forceKill : Bool
  conns : List Nat
  heap : List ManagedConn
  nextId : Nat

/-- Go `chanGroup.resetConnections`: for each outstanding connection,
`Reset(true)`, then `Close()` if `forceKill` (its error discarded — only the
updated wrapper, `.1`, is kept); finally the outstanding list is emptied.
The per-connection effects are independent, so the loop over `cg.conns` is
rendered as a map over the wrapper store guarded by membership. -/
def resetConnections (cg : ChanGroup) : ChanGroup :=
  let heap' := cg.heap.map (fun c =>
    if c.id ∈ cg.conns then
      let c1 := managedConnReset true c
      if cg.forceKill then (managedConnClose c1).1 else c1
    else c)
  { cg with heap := heap', conns := [] }

/-- Go `chanGroup.valueChanged`: cancel the active scope, derive a fresh one
from the parent, reset the connections, store the new value. -/
def valueChanged (v : String) (cg : ChanGroup) : ChanGroup :=
  let cg1 := { cg with cancelledCtxs := cg.ctx :: cg.cancelledCtxs,
                       ctx := cg.ctx + 1 }
  let cg2 := resetConnections cg1
  { cg2 with value := v }

/-- One delivery of a value `v` on the update channel inside
`chanGroup.run`: an unchanged value is ignored, otherwise the swap runs and
the `connection information changed` event is logged.  The returned list is
the log output of the step. -/
def runStep (cg : ChanGroup) (v : String) : ChanGroup × List String :=
  if v = cg.value then (cg, [])
  else (valueChanged v cg, ["connection information changed"])

/-- Go `mergeConnectionStringOptions`. -/
def mergeConnectionStringOptions (dsn : String) (options : List (String × String)) :
    Except String String :=
  if options.length = 0 then .ok dsn
  else
    match parseRequestURI dsn with
    | .error e =>
        .error ("unable to parse connection string when specifying extra driver options: " ++ e)
    | .ok u =>
      match parseQuery u.rawQuery with
      | .error e =>
          .error ("unable to parse query options in connection string when specifying extra driver options: " ++ e)
      | .ok values =>
          let values' := options.foldl (fun vs kv => valuesSet vs kv.1 kv.2) values
          .ok (urlString { u with rawQuery := valuesEncode values' })

/-- What a hotload `Open` hands back in the `driver.Conn` position: a
managed wrapper, or (on an underlying-driver error) the driver's raw result
passed through unwrapped. -/
inductive HConn where
  | wrapper (id : Nat)
  | raw (r : String)
deriving Repr, DecidableEq

/-- Go's `(driver.Conn, error)` return pair. -/
abbrev OpenResult := Option HConn × Option HErr

/-- Go `chanGroup.Open`: merge options into the current value, open through
the bound driver, wrap and record the connection. -/
def cgOpen (cg : ChanGroup) : ChanGroup × OpenResult :=
  match mergeConnectionStringOptions cg.value cg.sqlDriver.options with
  | .error e => (cg, (none, some (.mergeErr e)))
  | .ok dsn =>
    match cg.sqlDriver.driver dsn with
    | (conn, some e) => (cg, (conn.map HConn.raw, some (.driverErr e)))
    | (conn, none) =>
      let manConn := newManagedConn cg.ctx cg.nextId dsn conn
      ({ cg with conns := cg.conns ++ [cg.nextId],
                 heap := cg.heap ++ [manConn],
                 nextId := cg.nextId + 1 },
       (some (.wrapper cg.nextId), none))

/-- Go `chanGroup.remove`: drop the first occurrence of the wrapper from the
outstanding list (called from the wrapper's on-close callback). -/
def cgRemove (cg : ChanGroup) (id : Nat) : ChanGroup :=
  { cg with conns := cg.conns.eraseP (· = id) }

/-- Go `chanGroup.parseValues`: only `forceKill` is interpreted; every other
query key is left untouched (it reaches the strategy via `Watch`, never the
connection string).  Go reads `v[0]`; `headD ""` stands for that index (the
lists produced by `url.Values` are never empty). -/
def parseValues (cg : ChanGroup) (vs : Values) : ChanGroup :=
  match valuesGet vs "forceKill" with
  | some l => { cg with forceKill := l.headD "" = "true" }
  | none => cg

/-! ## The dispatcher (`hdriver`) -/

/-- Externally visible actions of `hdriver.Open` beyond its return value:
invoking a strategy's `Watch`, and starting a monitor's background loop
(`go cgroup.run()`). -/
inductive Event where
  | watchCalled (pth : String)
  | loopStarted
deriving Repr, DecidableEq

/-- Go `hdriver` together with the package-level registries it consults:
the process-wide state of the dispatcher. -/
structure HDriver where
  strategies : List (String × StratFn)
  sqlDrivers : List (String × DriverInstance)
  cgroup : List (String × ChanGroup)

/-- Go `hdriver.Open`: parse the dispatch address, reuse the monitor for the
address if one exists, otherwise resolve strategy and driver, call `Watch`,
create and register the monitor and start its loop; in all monitor-bearing
cases delegate to `chanGroup.Open`.  The third component is the list of
external actions taken. -/
def hOpen (h : HDriver) (name : String) : HDriver × OpenResult × List Event :=
  match parseURL name with
  | .error e => (h, (none, some (.parseErr e)), [])
  | .ok uri =>
    match lookupAssoc h.cgroup name with
    | some cg =>
        let (cg', r) := cgOpen cg
        ({ h with cgroup := assocSet h.cgroup name cg' }, r, [])
    | none =>
      match lookupAssoc h.strategies uri.scheme with
      | none => (h, (none, some .unsupportedStrategy), [])
      | some strategy =>
        match lookupAssoc h.sqlDrivers uri.host with
        | none => (h, (none, some .unknownDriver), [])
        | some sqlDriver =>
          let queryParams := urlQuery uri
          match strategy uri.path queryParams with
          | .error e => (h, (none, some (.watchErr e)), [.watchCalled uri.path])
          | .ok value =>
            let cgroup0 : ChanGroup :=
              { value := value, ctx := 0, cancelledCtxs := [],
                sqlDriver := sqlDriver, forceKill := false,
                conns := [], heap := [], nextId := 0 }
            let cgroup1 := parseValues cgroup0 queryParams
            let h1 : HDriver := { h with cgroup := assocSet h.cgroup name cgroup1 }
            let (cg', r) := cgOpen cgroup1
            ({ h1 with cgroup := assocSet h1.cgroup name cg' }, r,
             [.watchCalled uri.path, .loopStarted])

/-- Whether an `Open` outcome is the option-merge failure. -/
def isMergeFailure : Option HErr → Bool
  | some (.mergeErr _) => true
  | _ => false

/-- Number of `Watch` invocations in an event list. -/
def countWatch (evs : List Event) : Nat :=
  evs.countP (fun e => match e with | .watchCalled _ => true | _ => false)

/-! ## Concrete fixtures

A recording underlying driver (the raw connection is the connection string it
was opened with), a failing one, a constant strategy and a failing one, and
small monitor/dispatcher states built from them; used to instantiate the
theorems below on closed inputs. -/

def drvRec : DrvFn := fun s => (some s, none)

def drvFail : DrvFn := fun _ => (none, some "connection refused")

def stratConst : StratFn := fun _ _ => Except.ok "postgres://h/db"

def stratFail : StratFn := fun _ _ => Except.error "watch failed"

def diRec : DriverInstance := { driver := drvRec, options := [] }

def hdr0 : HDriver :=
  { strategies := [("fs", stratConst)], sqlDrivers := [("pg", diRec)], cgroup := [] }

def hdrFail : HDriver :=
  { strategies := [("fs", stratFail)], sqlDrivers := [("pg", diRec)], cgroup := [] }

def c0W : ManagedConn :=
  { id := 0, dsn := "postgres://h/db", raw := "postgres://h/db", ctx := 0,
    invalidated := false, closeCalled := false, closeErr := none }

def cgW : ChanGroup :=
  { value := "postgres://h/db", ctx := 0, cancelledCtxs := [], sqlDriver := diRec,
    forceKill := false, conns := [0], heap := [c0W], nextId := 1 }

def cgFailW : ChanGroup := { cgW with sqlDriver := { driver := drvFail, options := [] } }

def cgBadW : ChanGroup :=
  { value := "host=a dbname=b", ctx := 0, cancelledCtxs := [], sqlDriver := diRec,
    forceKill := false, conns := [], heap := [], nextId := 0 }

/-! ## Helper lemmas on association lists -/

theorem lookupAssoc_append_left {α : Type} (l l' : List (String × α)) (k : String)
    (v : α) (h : lookupAssoc l k = some v) : lookupAssoc (l ++ l') k = some v := by
  induction l with
  | nil => simp [lookupAssoc] at h
  | cons p rest ih =>
      obtain ⟨k', v'⟩ := p
      by_cases hk : k' = k
      · simpa [lookupAssoc, hk] using h
      · simp only [lookupAssoc, if_neg hk] at h ⊢
        exact ih h

theorem lookupAssoc_append_self {α : Type} (l : List (String × α)) (k : String)
    (v : α) (h : lookupAssoc l k = none) :
    lookupAssoc (l ++ [(k, v)]) k = some v := by
  induction l with
  | nil => simp [lookupAssoc]
  | cons p rest ih =>
      obtain ⟨k', v'⟩ := p
      by_cases hk : k' = k
      · simp [lookupAssoc, hk] at h
      · simp only [lookupAssoc, if_neg hk] at h ⊢
        exact ih h

theorem lookupAssoc_assocSet_self {α : Type} (l : List (String × α)) (k : String)
    (v : α) : lookupAssoc (assocSet l k v) k = some v := by
  induction l with
  | nil => simp [lookupAssoc, assocSet]
  | cons p rest ih =>
      obtain ⟨k', v'⟩ := p
      by_cases hk : k' = k
      · simp [lookupAssoc, assocSet, hk]
      · simp only [assocSet, lookupAssoc, if_neg hk]
        exact ih

theorem lookupAssoc_assocSet_ne {α : Type} (l : List (String × α)) (k k' : String)
    (v : α) (h : k' ≠ k) :
    lookupAssoc (assocSet l k v) k' = lookupAssoc l k' := by
  induction l with
  | nil => simp [lookupAssoc, assocSet, Ne.symm h]
  | cons p rest ih =>
      obtain ⟨k1, v1⟩ := p
      by_cases hk : k1 = k
      · subst hk
        simp [lookupAssoc, assocSet, Ne.symm h]
      · simp only [assocSet, if_neg hk, lookupAssoc]
        by_cases hk' : k1 = k'
        · simp [hk']
        · simp only [if_neg hk']
          exact ih

theorem assocKeys_assocSet_present {α : Type} (l : List (String × α)) (k : String)
    (v : α) (h : (lookupAssoc l k).isSome) :
    assocKeys (assocSet l k v) = assocKeys l := by
  induction l with
  | nil => simp [lookupAssoc] at h
  | cons p rest ih =>
      obtain ⟨k', v'⟩ := p
      by_cases hk : k' = k
      · simp [assocKeys, assocSet, hk]
      · simp only [lookupAssoc, if_neg hk] at h
        simp only [assocKeys, assocSet, if_neg hk, List.map_cons]
        simpa [assocKeys] using congrArg (k' :: ·) (ih h)

theorem assocKeys_assocSet_absent {α : Type} (l : List (String × α)) (k : String)
    (v : α) (h : lookupAssoc l k = none) :
    assocKeys (assocSet l k v) = assocKeys l ++ [k] := by
  induction l with
  | nil => simp [assocKeys, assocSet]
  | cons p rest ih =>
      obtain ⟨k', v'⟩ := p
      by_cases hk : k' = k
      · simp [lookupAssoc, hk] at h
      · simp only [lookupAssoc, if_neg hk] at h
        simp only [assocKeys, assocSet, if_neg hk, List.map_cons, List.cons_append]
        simpa [assocKeys] using congrArg (k' :: ·) (ih h)

/-! ## Claims -/

/-- C3: delivering on the update stream a value equal to the monitor's
current value is a no-op: the monitor state (value, active scope, cancelled
scopes, outstanding and historical connections) is untouched and no
`connection information changed` log event is produced. -/
theorem runStep_same_value_noop (cg : ChanGroup) (v : String)
    (h : v = cg.value) : runStep cg v = (cg, []) := by
  simp [runStep, h]

/-- Witness for C3 on a monitor with one outstanding connection. -/
theorem runStep_same_value_noop_witness :
    runStep cgW "postgres://h/db" = (cgW, []) :=
  runStep_same_value_noop cgW "postgres://h/db" rfl

/-- C7 (counterexample): on an address that fails URI parsing the dispatcher
returns the parse error itself, which is a different error value from the
declared `ErrMalformedConnectionString`; so `Open` does not return the
`MalformedAddress` error. -/
theorem hOpen_parse_error_counterexample :
    hOpen hdr0 "a\x00b" =
      (hdr0, (none, some (.parseErr "net/url: invalid control character in URL")), []) ∧
    HErr.parseErr "net/url: invalid control character in URL" ≠
      HErr.malformedConnectionString :=
  ⟨rfl, by decide⟩

/-- C7 (amended): for every input string that fails to parse as a URI, the
dispatcher's `Open` returns the parse error itself (not
`ErrMalformedConnectionString`), creates no monitor and performs no external
action. -/
theorem hOpen_parse_error (h : HDriver) (name : String) (e : String)
    (hp : parseURL name = .error e) :
    hOpen h name = (h, (none, some (.parseErr e)), []) := by
  simp [hOpen, hp]

/-- Witness for amended C7 at a concrete control-character address. -/
theorem hOpen_parse_error_witness :
    hOpen hdrFail "a\x00b" =
      (hdrFail, (none, some (.parseErr "net/url: invalid control character in URL")), []) :=
  hOpen_parse_error hdrFail "a\x00b" _ rfl

/-- C9: if the strategy's `Watch` fails on first subscribe, the dispatcher's
`Open` returns exactly that error, the monitor table (indeed the whole
dispatcher state) is unchanged, and no background loop is started — the only
external action is the one `Watch` call. -/
theorem hOpen_watch_failure (h : HDriver) (name : String) (uri : GoURL)
    (strategy : StratFn) (di : DriverInstance) (e : String)
    (h1 : parseURL name = .ok uri)
    (h2 : lookupAssoc h.cgroup name = none)
    (h3 : lookupAssoc h.strategies uri.scheme = some strategy)
    (h4 : lookupAssoc h.sqlDrivers uri.host = some di)
    (h5 : strategy uri.path (urlQuery uri) = .error e) :
    hOpen h name = (h, (none, some (.watchErr e)), [.watchCalled uri.path]) := by
  simp [hOpen, h1, h2, h3, h4, h5]

/-- Witness for C9: a failing strategy leaves the dispatcher untouched. -/
theorem hOpen_watch_failure_witness :
    hOpen hdrFail "fs://pg/cfg" =
      (hdrFail, (none, some (.watchErr "watch failed")), [.watchCalled "/cfg"]) :=
  hOpen_watch_failure hdrFail "fs://pg/cfg"
    { scheme := "fs", opaqueData := "", host := "pg", path := "/cfg", rawQuery := "" }
    stratFail diRec "watch failed" rfl rfl rfl rfl rfl

/-- C10: if the bound underlying driver's `Open` fails, the monitor's `Open`
returns the driver's raw result and its error unwrapped, and the monitor
state — in particular the outstanding-connections list — is exactly what it
was before the call; no wrapper is created. -/
theorem cgOpen_driver_error (cg : ChanGroup) (dsn : String) (rc : Option String)
    (e : String)
    (hm : mergeConnectionStringOptions cg.value cg.sqlDriver.options = .ok dsn)
    (hd : cg.sqlDriver.driver dsn = (rc, some e)) :
    cgOpen cg = (cg, (rc.map HConn.raw, some (.driverErr e))) := by
  simp [cgOpen, hm, hd]

/-- Witness for C10 with a concrete failing driver. -/
theorem cgOpen_driver_error_witness :
    cgOpen cgFailW = (cgFailW, (none, some (.driverErr "connection refused"))) :=
  cgOpen_driver_error cgFailW "postgres://h/db" none "connection refused" rfl rfl

/-- When `chanGroup.Open` hands back a wrapper, that wrapper is recorded in
the monitor and its connection string is the merge of the monitor's current
value with the bound driver's options. -/
theorem cgOpen_wrapper_spec (cg : ChanGroup) (cid : Nat)
    (h : (cgOpen cg).2.1 = some (HConn.wrapper cid)) :
    ∃ c' ∈ (cgOpen cg).1.heap, c'.id = cid ∧
      mergeConnectionStringOptions cg.value cg.sqlDriver.options = .ok c'.dsn := by
  unfold cgOpen at h ⊢
  cases hm : mergeConnectionStringOptions cg.value cg.sqlDriver.options with
  | error e => rw [hm] at h; simp at h
  | ok dsn =>
      rw [hm] at h
      dsimp only at h ⊢
      cases hd : cg.sqlDriver.driver dsn with
      | mk conn errOpt =>
          rw [hd] at h
          cases errOpt with
          | some e =>
              dsimp only at h
              cases conn with
              | none => simp at h
              | some r => simp at h
          | none =>
              dsimp only at h ⊢
              have hid : cg.nextId = cid := HConn.wrapper.inj (Option.some.inj h)
              exact ⟨newManagedConn cg.ctx cg.nextId dsn conn, by simp, hid, rfl⟩

/-- The monitor's `Open` never changes its value, bound driver or
force-kill policy. -/
theorem cgOpen_preserves (cg : ChanGroup) :
    (cgOpen cg).1.value = cg.value ∧ (cgOpen cg).1.sqlDriver = cg.sqlDriver ∧
    (cgOpen cg).1.forceKill = cg.forceKill := by
  unfold cgOpen
  cases hm : mergeConnectionStringOptions cg.value cg.sqlDriver.options with
  | error e => exact ⟨rfl, rfl, rfl⟩
  | ok dsn =>
      dsimp only
      cases hd : cg.sqlDriver.driver dsn with
      | mk conn errOpt =>
          cases errOpt with
          | some e => exact ⟨rfl, rfl, rfl⟩
          | none => exact ⟨rfl, rfl, rfl⟩

/-- C1: when a swap to `v` completes, the stored value is `v`, the
outstanding list is empty, every previously outstanding wrapper has been
invalidated, and any `Open` running after the swap builds (and records in
the wrapper it returns) a connection string merged from `v`, not from the
old value. -/
theorem valueChanged_swap (cg : ChanGroup) (v : String) :
    (valueChanged v cg).value = v ∧
    (valueChanged v cg).conns = [] ∧
    (∀ c ∈ cg.heap, c.id ∈ cg.conns →
       ∀ c' ∈ (valueChanged v cg).heap, c'.id = c.id → c'.invalidated = true) ∧
    (∀ cid, (cgOpen (valueChanged v cg)).2.1 = some (HConn.wrapper cid) →
       ∃ c' ∈ (cgOpen (valueChanged v cg)).1.heap, c'.id = cid ∧
         mergeConnectionStringOptions v cg.sqlDriver.options = .ok c'.dsn) := by
  refine ⟨rfl, rfl, ?_, ?_⟩
  · intro c hc hcm c' hc' hid
    have hc'' : c' ∈ cg.heap.map (fun c0 =>
        if c0.id ∈ cg.conns then
          (if cg.forceKill then (managedConnClose (managedConnReset true c0)).1
           else managedConnReset true c0)
        else c0) := hc'
    obtain ⟨c₀, hc₀, hfc⟩ := List.mem_map.mp hc''
    by_cases hmem : c₀.id ∈ cg.conns
    · rw [← hfc]
      by_cases hfk : cg.forceKill = true <;>
        simp [hmem, hfk, managedConnClose, managedConnReset]
    · rw [← hfc] at hid
      simp only [if_neg hmem] at hid
      exact absurd (show c₀.id ∈ cg.conns by rw [hid]; exact hcm) hmem
  · intro cid hcid
    exact cgOpen_wrapper_spec (valueChanged v cg) cid hcid

/-- Witness for C1: a swap on a monitor with one outstanding connection. -/
theorem valueChanged_swap_witness :
    (valueChanged "postgres://h2/db" cgW).value = "postgres://h2/db" ∧
    (valueChanged "postgres://h2/db" cgW).conns = [] ∧
    ({ c0W with invalidated := true } : ManagedConn).invalidated = true ∧
    (∃ c' ∈ (cgOpen (valueChanged "postgres://h2/db" cgW)).1.heap, c'.id = 1 ∧
       mergeConnectionStringOptions "postgres://h2/db" cgW.sqlDriver.options
         = .ok c'.dsn) := by
  obtain ⟨h1, h2, h3, h4⟩ := valueChanged_swap cgW "postgres://h2/db"
  exact ⟨h1, h2,
    h3 c0W (by decide) (by decide) { c0W with invalidated := true } (by decide) (by decide),
    h4 1 rfl⟩

/-- C4: during a swap every previously outstanding wrapper is invalidated;
its `Close` is invoked exactly when `forceKill` is set (with `forceKill`
unset no close happens that had not already happened); wrappers not
outstanding are untouched; afterwards the outstanding list is empty; and the
close errors of the underlying connections have no influence on the swap
(they are swallowed). -/
theorem resetConnections_policy (cg : ChanGroup) :
    (∀ c ∈ cg.heap, c.id ∈ cg.conns →
       (if cg.forceKill then
          ({ c with invalidated := true, closeCalled := true } : ManagedConn)
        else { c with invalidated := true }) ∈ (resetConnections cg).heap) ∧
    (∀ c ∈ cg.heap, c.id ∉ cg.conns → c ∈ (resetConnections cg).heap) ∧
    (cg.forceKill = false →
       ∀ c' ∈ (resetConnections cg).heap, c'.closeCalled = true →
         ∃ c ∈ cg.heap, c.closeCalled = true) ∧
    (resetConnections cg).conns = [] ∧
    (∀ f : Nat → Option String,
       resetConnections
           { cg with heap := cg.heap.map (fun c => { c with closeErr := f c.id }) }
         = { resetConnections cg with
             heap := (resetConnections cg).heap.map
               (fun c => { c with closeErr := f c.id }) }) := by
  refine ⟨?_, ?_, ?_, rfl, ?_⟩
  · intro c hc hcm
    refine List.mem_map.mpr ⟨c, hc, ?_⟩
    by_cases hfk : cg.forceKill = true <;>
      simp [hcm, hfk, managedConnReset, managedConnClose]
  · intro c hc hcm
    exact List.mem_map.mpr ⟨c, hc, by simp [hcm]⟩
  · intro hfk c' hc' hclosed
    obtain ⟨c₀, hc₀, hfc⟩ := List.mem_map.mp hc'
    by_cases hmem : c₀.id ∈ cg.conns
    · refine ⟨c₀, hc₀, ?_⟩
      rw [← hfc] at hclosed
      simpa [hmem, hfk, managedConnReset] using hclosed
    · refine ⟨c₀, hc₀, ?_⟩
      rw [← hfc] at hclosed
      simpa [hmem] using hclosed
  · intro f
    cases cg with
    | mk value ctx cancelledCtxs sqlDriver forceKill conns heap nextId =>
        simp only [resetConnections]
        dsimp only
        congr 1
        rw [List.map_map, List.map_map]
        congr 1
        funext c
        by_cases hmem : c.id ∈ conns <;> cases forceKill <;>
          simp [Function.comp, hmem, managedConnReset, managedConnClose]

/-- Witness for C4: the same one-connection monitor under both force-kill
policies. -/
theorem resetConnections_policy_witness :
    ({ c0W with invalidated := true, closeCalled := true } : ManagedConn) ∈
        (resetConnections { cgW with forceKill := true }).heap ∧
    ({ c0W with invalidated := true } : ManagedConn) ∈ (resetConnections cgW).heap := by
  constructor
  · have h := (resetConnections_policy { cgW with forceKill := true }).1 c0W
      (by decide) (by decide)
    simpa [cgW] using h
  · have h := (resetConnections_policy cgW).1 c0W (by decide) (by decide)
    simpa [cgW] using h

/-- Exact failure condition of `mergeConnectionStringOptions`: it fails iff
there are options to merge and the connection string (or its query part)
does not parse. -/
theorem merge_error_iff (dsn : String) (options : List (String × String)) :
    (∃ e, mergeConnectionStringOptions dsn options = .error e) ↔
      options ≠ [] ∧
        ((∃ e, parseRequestURI dsn = .error e) ∨
         (∃ u, parseRequestURI dsn = .ok u ∧ ∃ e, parseQuery u.rawQuery = .error e)) := by
  unfold mergeConnectionStringOptions
  by_cases hlen : options.length = 0
  · rw [if_pos hlen]
    simp [List.length_eq_zero.mp hlen]
  · rw [if_neg hlen]
    have hne : options ≠ [] := fun hcon => hlen (by simp [hcon])
    cases hp : parseRequestURI dsn with
    | error e => simp [hne]
    | ok u =>
        dsimp only
        cases hq : parseQuery u.rawQuery with
        | error e => simp [hne, hq]
        | ok vals => simp [hne, hq]

/-- The monitor's `Open` reports a merge failure exactly when the merge step
fails, and in that case the monitor is untouched and no connection is
handed back. -/
theorem cgOpen_mergeFailure_cases (cg : ChanGroup) :
    (isMergeFailure (cgOpen cg).2.2 = true ↔
       ∃ e, mergeConnectionStringOptions cg.value cg.sqlDriver.options = .error e) ∧
    (isMergeFailure (cgOpen cg).2.2 = true →
       (cgOpen cg).1 = cg ∧ (cgOpen cg).2.1 = none) := by
  unfold cgOpen
  cases hm : mergeConnectionStringOptions cg.value cg.sqlDriver.options with
  | error e =>
      dsimp only
      exact ⟨by simp [isMergeFailure], fun _ => ⟨rfl, rfl⟩⟩
  | ok dsn =>
      dsimp only
      cases hd : cg.sqlDriver.driver dsn with
      | mk conn errOpt =>
          cases errOpt with
          | some e2 =>
              dsimp only
              exact ⟨by simp [isMergeFailure], by simp [isMergeFailure]⟩
          | none =>
              dsimp only
              exact ⟨by simp [isMergeFailure], by simp [isMergeFailure]⟩

/-- Dispatching `Open` on one address never touches the monitor of a different
address. -/
theorem hOpen_other_addresses (h : HDriver) (name nm : String) (hne : nm ≠ name) :
    lookupAssoc (hOpen h name).1.cgroup nm = lookupAssoc h.cgroup nm := by
  unfold hOpen
  dsimp only
  repeat' split
  all_goals
    first
      | rfl
      | exact lookupAssoc_assocSet_ne _ _ _ _ hne
      | rw [lookupAssoc_assocSet_ne _ _ _ _ hne, lookupAssoc_assocSet_ne _ _ _ _ hne]

/-- C6 (counterexample): with no options to merge, `chanGroup.Open` succeeds
even though the current value is not a URI-shaped connection string — the
merge step short-circuits before parsing, so `Open` does not fail with the
option-merge failure. -/
theorem mergeFailure_not_iff_counterexample :
    parseRequestURI cgBadW.value = .error "invalid URI for request" ∧
    cgBadW.sqlDriver.options = [] ∧
    isMergeFailure (cgOpen cgBadW).2.2 = false ∧
    (cgOpen cgBadW).2.1 = some (HConn.wrapper 0) := ⟨rfl, rfl, rfl, rfl⟩

/-- C6 (amended): a monitor's `Open` fails with the option-merge failure iff
the bound driver entry has a nonempty option set and the current value (or
its query string) fails URI parsing; on that failure the monitor state is
unchanged, no connection is opened, and a dispatch on one address never
touches the monitor of another address. -/
theorem cgOpen_mergeFailure_iff (cg : ChanGroup) :
    (isMergeFailure (cgOpen cg).2.2 = true ↔
       cg.sqlDriver.options ≠ [] ∧
         ((∃ e, parseRequestURI cg.value = .error e) ∨
          (∃ u, parseRequestURI cg.value = .ok u ∧
             ∃ e, parseQuery u.rawQuery = .error e))) ∧
    (isMergeFailure (cgOpen cg).2.2 = true →
       (cgOpen cg).1 = cg ∧ (cgOpen cg).2.1 = none) ∧
    (∀ h name nm, nm ≠ name →
       lookupAssoc (hOpen h name).1.cgroup nm = lookupAssoc h.cgroup nm) :=
  ⟨(cgOpen_mergeFailure_cases cg).1.trans
      (merge_error_iff cg.value cg.sqlDriver.options),
   (cgOpen_mergeFailure_cases cg).2,
   fun h name nm hne => hOpen_other_addresses h name nm hne⟩

def cgBad2W : ChanGroup :=
  { cgBadW with sqlDriver := { driver := drvRec, options := [("connect_timeout", "5")] } }

/-- Witness for amended C6: non-URI value with options present fails and
leaves the state alone; another address's monitor entry is untouched. -/
theorem cgOpen_mergeFailure_iff_witness :
    isMergeFailure (cgOpen cgBad2W).2.2 = true ∧ (cgOpen cgBad2W).1 = cgBad2W ∧
    lookupAssoc (hOpen hdr0 "fs://pg/cfg").1.cgroup "other"
      = lookupAssoc hdr0.cgroup "other" := by
  have h1 := (cgOpen_mergeFailure_iff cgBad2W).1.mpr
    ⟨by decide, Or.inl ⟨"invalid URI for request", rfl⟩⟩
  exact ⟨h1, ((cgOpen_mergeFailure_iff cgBad2W).2.1 h1).1,
    (cgOpen_mergeFailure_iff cgBad2W).2.2 hdr0 "fs://pg/cfg" "other" (by decide)⟩

/-- Parsing the query values touches only the `forceKill` flag. -/
theorem parseValues_preserves (cg : ChanGroup) (vs : Values) :
    (parseValues cg vs).value = cg.value ∧
    (parseValues cg vs).sqlDriver = cg.sqlDriver ∧
    (parseValues cg vs).conns = cg.conns ∧
    (parseValues cg vs).heap = cg.heap := by
  unfold parseValues
  cases valuesGet vs "forceKill" <;> exact ⟨rfl, rfl, rfl, rfl⟩

/-- A successful monitor creation registers a group whose bound driver entry
is the registered one and whose value is the strategy's initial value —
independent of the address's query parameters. -/
theorem hOpen_creates (h : HDriver) (name : String) (uri : GoURL)
    (strategy : StratFn) (di : DriverInstance) (value : String)
    (h1 : parseURL name = .ok uri)
    (h2 : lookupAssoc h.cgroup name = none)
    (h3 : lookupAssoc h.strategies uri.scheme = some strategy)
    (h4 : lookupAssoc h.sqlDrivers uri.host = some di)
    (h5 : strategy uri.path (urlQuery uri) = .ok value) :
    ∃ cg₁, lookupAssoc (hOpen h name).1.cgroup name = some cg₁ ∧
      cg₁.sqlDriver = di ∧ cg₁.value = value := by
  unfold hOpen
  rw [h1]; dsimp only
  rw [h2]; dsimp only
  rw [h3]; dsimp only
  rw [h4]; dsimp only
  rw [h5]; dsimp only
  rcases heq : cgOpen (parseValues
      { value := value, ctx := 0, cancelledCtxs := [], sqlDriver := di,
        forceKill := false, conns := [], heap := [], nextId := 0 }
      (urlQuery uri)) with ⟨cg', r⟩
  dsimp only
  refine ⟨cg', lookupAssoc_assocSet_self _ _ _, ?_, ?_⟩
  · have hp := (cgOpen_preserves (parseValues
      { value := value, ctx := 0, cancelledCtxs := [], sqlDriver := di,
        forceKill := false, conns := [], heap := [], nextId := 0 }
      (urlQuery uri))).2.1
    rw [heq] at hp
    rw [hp, (parseValues_preserves _ _).2.1]
  · have hp := (cgOpen_preserves (parseValues
      { value := value, ctx := 0, cancelledCtxs := [], sqlDriver := di,
        forceKill := false, conns := [], heap := [], nextId := 0 }
      (urlQuery uri))).1
    rw [heq] at hp
    rw [hp, (parseValues_preserves _ _).1]

/-- C2 (amended): extra dispatch-address query parameters are not merged
into the connection string.  `parseValues` only reads `forceKill`; the
string a wrapper is opened with is the merge of the monitor's value with the
driver entry's registered options alone; and the monitor created for an
address carries exactly the registered driver entry, whatever the query
parameters were (they reach only the strategy's `Watch`). -/
theorem queryParams_not_merged (cg : ChanGroup) (vs : Values) (h : HDriver)
    (name : String) (uri : GoURL) (strategy : StratFn) (di : DriverInstance)
    (value : String)
    (h1 : parseURL name = .ok uri)
    (h2 : lookupAssoc h.cgroup name = none)
    (h3 : lookupAssoc h.strategies uri.scheme = some strategy)
    (h4 : lookupAssoc h.sqlDrivers uri.host = some di)
    (h5 : strategy uri.path (urlQuery uri) = .ok value) :
    (parseValues cg vs).value = cg.value ∧
    (parseValues cg vs).sqlDriver = cg.sqlDriver ∧
    (∀ cid, (cgOpen cg).2.1 = some (HConn.wrapper cid) →
       ∃ c' ∈ (cgOpen cg).1.heap, c'.id = cid ∧
         mergeConnectionStringOptions cg.value cg.sqlDriver.options = .ok c'.dsn) ∧
    (∃ cg₁, lookupAssoc (hOpen h name).1.cgroup name = some cg₁ ∧
       cg₁.sqlDriver = di ∧ cg₁.value = value) :=
  ⟨(parseValues_preserves cg vs).1, (parseValues_preserves cg vs).2.1,
   fun cid hc => cgOpen_wrapper_spec cg cid hc,
   hOpen_creates h name uri strategy di value h1 h2 h3 h4 h5⟩

/-- C2 (counterexample): the address carries `sslmode=disable`, yet the one
connection opened through the resulting monitor was opened with the merged
string `postgres://h/db`, which does not contain it. -/
theorem queryParams_merge_counterexample :
    ((lookupAssoc (hOpen hdr0 "fs://pg/cfg?forceKill=true&sslmode=disable").1.cgroup
        "fs://pg/cfg?forceKill=true&sslmode=disable").map
      (fun cg => cg.heap.map (fun c => c.dsn))) = some ["postgres://h/db"] ∧
    containsSub "sslmode" "postgres://h/db" = false := ⟨rfl, rfl⟩

/-- Witness for amended C2 on the `sslmode=disable` scenario. -/
theorem queryParams_not_merged_witness :
    (parseValues cgW [("sslmode", ["disable"])]).value = cgW.value ∧
    (∃ cg₁,
       lookupAssoc (hOpen hdr0 "fs://pg/cfg?forceKill=true&sslmode=disable").1.cgroup
           "fs://pg/cfg?forceKill=true&sslmode=disable" = some cg₁ ∧
       cg₁.sqlDriver = diRec ∧ cg₁.value = "postgres://h/db") := by
  have h := queryParams_not_merged cgW [("sslmode", ["disable"])] hdr0
    "fs://pg/cfg?forceKill=true&sslmode=disable"
    { scheme := "fs", opaqueData := "", host := "pg", path := "/cfg",
      rawQuery := "forceKill=true&sslmode=disable" }
    stratConst diRec "postgres://h/db" rfl rfl rfl rfl rfl
  exact ⟨h.1, h.2.2.2⟩

/-- C5: at most one monitor per dispatch address.  If a monitor for the
address exists, `Open` performs no `Watch` call, keeps the monitor-table
keys unchanged and re-uses exactly that monitor (delegating to its
`chanGroup.Open`).  If no monitor exists, `Open` performs at most one
`Watch` call, and either leaves the dispatcher completely unchanged with no
monitor registered, or registers exactly one monitor for the address with
exactly one `Watch` call. -/
theorem hOpen_monitor_unique (h : HDriver) (name : String) :
    (∀ cg, lookupAssoc h.cgroup name = some cg →
       countWatch (hOpen h name).2.2 = 0 ∧
       assocKeys (hOpen h name).1.cgroup = assocKeys h.cgroup ∧
       (∀ uri, parseURL name = .ok uri →
          lookupAssoc (hOpen h name).1.cgroup name = some (cgOpen cg).1)) ∧
    (lookupAssoc h.cgroup name = none →
       countWatch (hOpen h name).2.2 ≤ 1 ∧
       ((hOpen h name).1 = h ∧ lookupAssoc (hOpen h name).1.cgroup name = none ∨
        countWatch (hOpen h name).2.2 = 1 ∧
          (lookupAssoc (hOpen h name).1.cgroup name).isSome = true ∧
          assocKeys (hOpen h name).1.cgroup = assocKeys h.cgroup ++ [name])) := by
  constructor
  · intro cg hcg
    cases hp : parseURL name with
    | error e =>
        have hres : hOpen h name = (h, (none, some (.parseErr e)), []) := by
          simp [hOpen, hp]
        rw [hres]
        exact ⟨rfl, rfl, fun uri hu => Except.noConfusion hu⟩
    | ok uri =>
        rcases hco : cgOpen cg with ⟨cg', r⟩
        have hres : hOpen h name =
            ({ h with cgroup := assocSet h.cgroup name cg' }, r, []) := by
          simp [hOpen, hp, hcg, hco]
        rw [hres]
        refine ⟨rfl, assocKeys_assocSet_present _ _ _ (by simp [hcg]), ?_⟩
        intro uri' hu
        rw [lookupAssoc_assocSet_self]
  · intro hcg
    cases hp : parseURL name with
    | error e =>
        have hres : hOpen h name = (h, (none, some (.parseErr e)), []) := by
          simp [hOpen, hp]
        rw [hres]
        exact ⟨Nat.zero_le 1, Or.inl ⟨rfl, hcg⟩⟩
    | ok uri =>
        cases hs : lookupAssoc h.strategies uri.scheme with
        | none =>
            have hres : hOpen h name = (h, (none, some .unsupportedStrategy), []) := by
              simp [hOpen, hp, hcg, hs]
            rw [hres]
            exact ⟨Nat.zero_le 1, Or.inl ⟨rfl, hcg⟩⟩
        | some strategy =>
            cases hd : lookupAssoc h.sqlDrivers uri.host with
            | none =>
                have hres : hOpen h name = (h, (none, some .unknownDriver), []) := by
                  simp [hOpen, hp, hcg, hs, hd]
                rw [hres]
                exact ⟨Nat.zero_le 1, Or.inl ⟨rfl, hcg⟩⟩
            | some di =>
                cases hw : strategy uri.path (urlQuery uri) with
                | error e =>
                    have hres : hOpen h name =
                        (h, (none, some (.watchErr e)), [.watchCalled uri.path]) := by
                      simp [hOpen, hp, hcg, hs, hd, hw]
                    rw [hres]
                    exact ⟨Nat.le_refl 1, Or.inl ⟨rfl, hcg⟩⟩
                | ok value =>
                    rcases hco : cgOpen (parseValues
                        { value := value, ctx := 0, cancelledCtxs := [],
                          sqlDriver := di, forceKill := false, conns := [],
                          heap := [], nextId := 0 }
                        (urlQuery uri)) with ⟨cg', r⟩
                    have hres : hOpen h name =
                        ({ h with cgroup := assocSet (assocSet h.cgroup name
                            (parseValues
                              { value := value, ctx := 0, cancelledCtxs := [],
                                sqlDriver := di, forceKill := false, conns := [],
                                heap := [], nextId := 0 }
                              (urlQuery uri))) name cg' }, r,
                         [.watchCalled uri.path, .loopStarted]) := by
                      simp [hOpen, hp, hcg, hs, hd, hw, hco]
                    rw [hres]
                    refine ⟨Nat.le_refl 1, Or.inr ⟨rfl, ?_, ?_⟩⟩
                    · rw [lookupAssoc_assocSet_self]
                      rfl
                    · rw [assocKeys_assocSet_present _ _ _
                        (by rw [lookupAssoc_assocSet_self]; rfl)]
                      exact assocKeys_assocSet_absent _ _ _ hcg

/-- Witness for C5: the first open of an address performs one `Watch` call
and registers the monitor; a second open of the same address performs none. -/
theorem hOpen_monitor_unique_witness :
    countWatch (hOpen hdr0 "fs://pg/cfg").2.2 = 1 ∧
    countWatch (hOpen (hOpen hdr0 "fs://pg/cfg").1 "fs://pg/cfg").2.2 = 0 := by
  have habs := (hOpen_monitor_unique hdr0 "fs://pg/cfg").2 rfl
  rcases habs.2 with hL | hR
  · exact Option.noConfusion hL.2
  · obtain ⟨cg, hcg⟩ := Option.isSome_iff_exists.mp hR.2.1
    exact ⟨hR.1,
      ((hOpen_monitor_unique (hOpen hdr0 "fs://pg/cfg").1 "fs://pg/cfg").1 cg hcg).1⟩

/-- Failure characterization of `RegisterSQLDriver`. -/
theorem registerSQLDriver_error_iff (ds : List (String × DriverInstance))
    (name : String) (drv : Option DrvFn)
    (opts : List (DriverInstance → DriverInstance)) :
    (∃ e, registerSQLDriver ds name drv opts = .error e) ↔
      drv.isNone = true ∨ (lookupAssoc ds name).isSome = true := by
  cases drv with
  | none => simp [registerSQLDriver]
  | some d =>
      unfold registerSQLDriver
      dsimp only
      by_cases hdup : (lookupAssoc ds name).isSome
      · rw [if_pos hdup]
        simp [hdup]
      · rw [if_neg hdup]
        simp [hdup]

/-- Shape of a successful `RegisterSQLDriver`. -/
theorem registerSQLDriver_ok_eq (ds : List (String × DriverInstance))
    (name : String) (drv : Option DrvFn)
    (opts : List (DriverInstance → DriverInstance))
    (ds' : List (String × DriverInstance))
    (h : registerSQLDriver ds name drv opts = .ok ds') :
    ∃ d, drv = some d ∧ lookupAssoc ds name = none ∧
      ds' = ds ++
        [(name, opts.foldl (fun di o => o di) { driver := d, options := [] })] := by
  cases drv with
  | none => simp [registerSQLDriver] at h
  | some d =>
      unfold registerSQLDriver at h
      dsimp only at h
      by_cases hdup : (lookupAssoc ds name).isSome
      · rw [if_pos hdup] at h
        cases h
      · rw [if_neg hdup] at h
        exact ⟨d, rfl, Option.not_isSome_iff_eq_none.mp hdup, (Except.ok.inj h).symm⟩

/-- Failure characterization of `RegisterStrategy`. -/
theorem registerStrategy_error_iff (ss : List (String × StratFn)) (name : String)
    (strat : Option StratFn) :
    (∃ e, registerStrategy ss name strat = .error e) ↔
      strat.isNone = true ∨ (lookupAssoc ss name).isSome = true := by
  cases strat with
  | none => simp [registerStrategy]
  | some s =>
      unfold registerStrategy
      dsimp only
      by_cases hdup : (lookupAssoc ss name).isSome
      · rw [if_pos hdup]
        simp [hdup]
      · rw [if_neg hdup]
        simp [hdup]

/-- Shape of a successful `RegisterStrategy`. -/
theorem registerStrategy_ok_eq (ss : List (String × StratFn)) (name : String)
    (strat : Option StratFn) (ss' : List (String × StratFn))
    (h : registerStrategy ss name strat = .ok ss') :
    ∃ s, strat = some s ∧ lookupAssoc ss name = none ∧
      ss' = ss ++ [(name, s)] := by
  cases strat with
  | none => simp [registerStrategy] at h
  | some s =>
      unfold registerStrategy at h
      dsimp only at h
      by_cases hdup : (lookupAssoc ss name).isSome
      · rw [if_pos hdup] at h
        cases h
      · rw [if_neg hdup] at h
        exact ⟨s, rfl, Option.not_isSome_iff_eq_none.mp hdup, (Except.ok.inj h).symm⟩

/-- C8: `RegisterSQLDriver` panics exactly when the driver is nil or the
name is already registered; on success it stores an entry for the name,
leaves every existing entry intact, and no later successful registration
ever changes the stored entry.  `RegisterStrategy` satisfies the same
contract keyed by scheme name. -/
theorem register_contract (ds : List (String × DriverInstance))
    (ss : List (String × StratFn)) (name : String) (drv : Option DrvFn)
    (opts : List (DriverInstance → DriverInstance)) (strat : Option StratFn) :
    ((∃ e, registerSQLDriver ds name drv opts = .error e) ↔
        drv.isNone = true ∨ (lookupAssoc ds name).isSome = true) ∧
    (∀ ds', registerSQLDriver ds name drv opts = .ok ds' →
        (lookupAssoc ds' name).isSome = true ∧
        (∀ n v, lookupAssoc ds n = some v → lookupAssoc ds' n = some v) ∧
        (∀ name2 drv2 opts2 ds'',
            registerSQLDriver ds' name2 drv2 opts2 = .ok ds'' →
            lookupAssoc ds'' name = lookupAssoc ds' name)) ∧
    ((∃ e, registerStrategy ss name strat = .error e) ↔
        strat.isNone = true ∨ (lookupAssoc ss name).isSome = true) ∧
    (∀ ss', registerStrategy ss name strat = .ok ss' →
        (lookupAssoc ss' name).isSome = true ∧
        (∀ n v, lookupAssoc ss n = some v → lookupAssoc ss' n = some v) ∧
        (∀ name2 strat2 ss'', registerStrategy ss' name2 strat2 = .ok ss'' →
            lookupAssoc ss'' name = lookupAssoc ss' name)) := by
  refine ⟨registerSQLDriver_error_iff ds name drv opts, ?_,
    registerStrategy_error_iff ss name strat, ?_⟩
  · intro ds' hok
    obtain ⟨d, hd, hnone, hds'⟩ := registerSQLDriver_ok_eq ds name drv opts ds' hok
    have hself : lookupAssoc ds' name =
        some (opts.foldl (fun di o => o di) { driver := d, options := [] }) := by
      rw [hds']
      exact lookupAssoc_append_self _ _ _ hnone
    refine ⟨by rw [hself]; rfl, ?_, ?_⟩
    · intro n v hv
      rw [hds']
      exact lookupAssoc_append_left _ _ _ _ hv
    · intro name2 drv2 opts2 ds'' hok2
      obtain ⟨d2, hd2, hnone2, hds''⟩ :=
        registerSQLDriver_ok_eq ds' name2 drv2 opts2 ds'' hok2
      rw [hds'', lookupAssoc_append_left _ _ _ _ hself, hself]
  · intro ss' hok
    obtain ⟨s, hs, hnone, hss'⟩ := registerStrategy_ok_eq ss name strat ss' hok
    have hself : lookupAssoc ss' name = some s := by
      rw [hss']
      exact lookupAssoc_append_self _ _ _ hnone
    refine ⟨by rw [hself]; rfl, ?_, ?_⟩
    · intro n v hv
      rw [hss']
      exact lookupAssoc_append_left _ _ _ _ hv
    · intro name2 strat2 ss'' hok2
      obtain ⟨s2, hs2, hnone2, hss''⟩ :=
        registerStrategy_ok_eq ss' name2 strat2 ss'' hok2
      rw [hss'', lookupAssoc_append_left _ _ _ _ hself, hself]

/-- Witness for C8: duplicate and nil registrations fail, fresh ones store a
retrievable entry. -/
theorem register_contract_witness :
    (∃ e, registerSQLDriver [("d", diRec)] "d" (some drvRec) [] = .error e) ∧
    (∃ e, registerSQLDriver [] "d" none [] = .error e) ∧
    (∃ e, registerStrategy [("fs", stratConst)] "fs" (some stratConst) = .error e) ∧
    (lookupAssoc ([("d", { driver := drvRec, options := [] })] :
        List (String × DriverInstance)) "d").isSome = true := by
  refine ⟨?_, ?_, ?_, ?_⟩
  · exact (register_contract [("d", diRec)] [] "d" (some drvRec) [] none).1.mpr
      (Or.inr rfl)
  · exact (register_contract [] [] "d" none [] none).1.mpr (Or.inl rfl)
  · exact (register_contract [] [("fs", stratConst)] "fs" none []
      (some stratConst)).2.2.1.mpr (Or.inr rfl)
  · exact ((register_contract [] [] "d" (some drvRec) [] none).2.1
      [("d", { driver := drvRec, options := [] })] rfl).1

end Hotload
